import Mathlib

/-!
Verification of the Zacks tracker fetch-and-merge pipeline (`zacks_app.py`).

The pipeline scrapes a per-ticker rating from a web page, fetches market
data, merges both into one row per input ticker, sorts by the numeric rank
and attaches display strings and styles.  External I/O (the HTTP fetches)
is modelled by oracle functions passed in as parameters: the scraper oracle
returns the page text on success and `none` on any network/HTTP error (the
Python code catches every exception from the request and from
`raise_for_status` with a bare `except`), and the market-data oracle
returns the fields read from the provider or `none` on any failure.
Python floats are modelled as exact rationals.
-/

namespace ZacksApp

/-- Characters matched by the regex class `\s` (ASCII range, as relevant to
page text). -/
def isSpaceChar (c : Char) : Bool :=
  c = ' ' || c = '\t' || c = '\n' || c = '\r' || c = '\x0b' || c = '\x0c'

/-- Characters matched by the regex class `\d`: the decimal digits, whose
code points are 48–57. -/
def isDigitChar (c : Char) : Bool :=
  48 ≤ c.toNat && c.toNat ≤ 57

/-- Match a literal character sequence as a prefix, returning the rest of
the input on success. -/
def matchLit : List Char → List Char → Option (List Char)
  | [], s => some s
  | _ :: _, [] => none
  | p :: ps, c :: cs => if c = p then matchLit ps cs else none

/-- The five phrases of the alternation
`(Strong Buy|Buy|Hold|Sell|Strong Sell)`, in the order the regex tries
them. -/
def rankPhrases : List String := ["Strong Buy", "Buy", "Hold", "Sell", "Strong Sell"]

/-- Ordered alternation: the first phrase in the list that matches as a
prefix of the input wins, exactly as Python regex alternation does. -/
def matchPhrase : List String → List Char → Option String
  | [], _ => none
  | p :: ps, s =>
    match matchLit p.toList s with
    | some _ => some p
    | none => matchPhrase ps s

/-- The optional literal `#?`: consume a leading hash if present. -/
def stripHash (s : List Char) : List Char :=
  match s with
  | [] => []
  | c :: r => if c = '#' then r else c :: r

/-- Attempt to match the pattern
`Zacks Rank\s*#?(\d)\s*-\s*(Strong Buy|Buy|Hold|Sell|Strong Sell)`
anchored at the head of the input, returning the captured digit and phrase.
Greedy consumption of each `\s*` run is equivalent to the regex because the
character classes on either side of each `\s*` are disjoint from `\s`. -/
def matchZacksAt (s : List Char) : Option (Char × String) :=
  match matchLit ("Zacks Rank".toList) s with
  | none => none
  | some s1 =>
    match stripHash (s1.dropWhile isSpaceChar) with
    | [] => none
    | c :: s2 =>
      if isDigitChar c then
        match s2.dropWhile isSpaceChar with
        | [] => none
        | d :: s3 =>
          if d = '-' then
            Option.map (fun p => (c, p)) (matchPhrase rankPhrases (s3.dropWhile isSpaceChar))
          else none
      else none

/-- The semantics of `re.search`: try to match at each start position from
left to right; the first position that matches wins. -/
def searchZacks : List Char → Option (Char × String)
  | [] => none
  | c :: rest =>
    match matchZacksAt (c :: rest) with
    | some r => some r
    | none => searchZacks rest

/-- Numeric value of a digit character (`int(match.group(1))` on a single
digit). -/
def digitVal (c : Char) : Nat := c.toNat - '0'.toNat

/-- Body of `get_zacks_rank` after the HTTP request: `fetch = none` models
any network/HTTP error (connection failure, timeout, or the non-2xx raise
from `raise_for_status`), all caught by the bare `except` which returns
`(None, None)`.  On a fetched page the visible text is searched for the
rank pattern; a match yields the digit value and the label
`f"{rank_num} - {rank_word}"`; no match yields `(None, None)`. -/
def rank_from_page (fetch : Option (List Char)) : Option Nat × Option String :=
  match fetch with
  | none => (none, none)
  | some text =>
    match searchZacks text with
    | some (c, p) => (some (digitVal c), some (toString (digitVal c) ++ " - " ++ p))
    | none => (none, none)

/-- `get_zacks_rank(ticker)`: the scrape oracle stands for the HTTP GET of
the templated quote-page URL for the ticker. -/
def get_zacks_rank (zfetch : String → Option (List Char)) (ticker : String) :
    Option Nat × Option String :=
  rank_from_page (zfetch ticker)

/-- Round a rational to the nearest integer, ties to even — the rounding
applied when Python formats a value to two decimals. -/
def roundHalfEven (q : ℚ) : ℤ :=
  if q - ⌊q⌋ < 1/2 then ⌊q⌋
  else if 1/2 < q - ⌊q⌋ then ⌊q⌋ + 1
  else if ⌊q⌋ % 2 = 0 then ⌊q⌋ else ⌊q⌋ + 1

/-- Fixed-point formatting to two decimals (`f"{num:.2f}"`), on the exact
rational value.  (Negative values that round to zero are rendered without
the sign in this model; no theorem depends on that corner.) -/
def formatTwoDec (q : ℚ) : String :=
  (if roundHalfEven (q * 100) < 0 then "-" else "") ++
    toString ((roundHalfEven (q * 100)).natAbs / 100) ++ "." ++
    (if (roundHalfEven (q * 100)).natAbs % 100 < 10
     then "0" ++ toString ((roundHalfEven (q * 100)).natAbs % 100)
     else toString ((roundHalfEven (q * 100)).natAbs % 100))

/-- `yahoo_rating_text(val)`: an absent (or non-numeric, modelled together
as `none`) analyst mean gives the sentinel string "-"; a numeric value is
formatted to two decimals and bucketed by the fixed thresholds
1.5 / 2.5 / 3.5 / 4.5 with strict `<` comparisons. -/
def yahoo_rating_text (val : Option ℚ) : String :=
  match val with
  | none => "-"
  | some num =>
    formatTwoDec num ++ " - " ++
      (if num < 1.5 then "Strong Buy"
       else if num < 2.5 then "Buy"
       else if num < 3.5 then "Hold"
       else if num < 4.5 then "Sell"
       else "Strong Sell")

/-- Price handling from the 5-day history: `closes` is the series of
available closing prices after `dropna()`; the code takes `tail(2)` and
branches on how many price points remain, guarding the division by a zero
previous close. -/
def price_fields (closes : List ℚ) : Option ℚ × Option ℚ :=
  match closes.drop (closes.length - 2) with
  | [prev, today] =>
    (some today, if prev ≠ 0 then some ((today - prev) / prev * 100) else none)
  | [today] => (some today, none)
  | _ => (none, none)

/-- `text_color_zacks(val)`: style keyed by the leading digit of the rank
label; absent (NaN) gives no style. -/
def text_color_zacks (val : Option String) : String :=
  match val with
  | none => ""
  | some v =>
    if v.startsWith "1" then "color:#00cc00; font-weight:bold"
    else if v.startsWith "2" then "color:#66cc66"
    else if v.startsWith "3" then "color:#cccc00"
    else if v.startsWith "4" then "color:#ff6666"
    else if v.startsWith "5" then "color:#cc0000; font-weight:bold"
    else ""

/-- Value of a digit run, most significant first. -/
def digitsVal (cs : List Char) : ℕ :=
  cs.foldl (fun a c => a * 10 + digitVal c) 0

/-- Decimal numeral parsing (optional sign, digit run, optional fractional
part), covering what Python `float()` accepts among the strings this
pipeline produces; anything else is a parse failure, the `except` branch. -/
def parseDecimal (s : String) : Option ℚ :=
  let cs := s.toList
  let sgn : ℚ := match cs with
    | '-' :: _ => -1
    | _ => 1
  let cs2 := match cs with
    | '-' :: r => r
    | '+' :: r => r
    | r => r
  let intPart := cs2.takeWhile isDigitChar
  let rest := cs2.dropWhile isDigitChar
  match rest with
  | [] => if intPart.isEmpty then none else some (sgn * digitsVal intPart)
  | '.' :: fr =>
    let fracPart := fr.takeWhile isDigitChar
    let rest2 := fr.dropWhile isDigitChar
    if rest2.isEmpty && !(intPart.isEmpty && fracPart.isEmpty) then
      some (sgn * ((digitsVal intPart : ℚ) +
        (digitsVal fracPart : ℚ) / (10 ^ fracPart.length)))
    else none
  | _ => none

/-- `text_color_yahoo(val)`: the displayed rating string is split on
" - ", its first segment parsed back to a number, and the style chosen by
the same fixed thresholds; a parse failure (for instance on the sentinel
"-") gives no style. -/
def text_color_yahoo (val : String) : String :=
  match parseDecimal ((val.splitOn " - ").headD val) with
  | none => ""
  | some num =>
    if num < 1.5 then "color:#00cc00; font-weight:bold"
    else if num < 2.5 then "color:#66cc66"
    else if num < 3.5 then "color:#cccc00"
    else if num < 4.5 then "color:#ff6666"
    else "color:#cc0000; font-weight:bold"

/-- `text_color_change(val)`: green bold for positive, red bold for
negative, no style for zero or absent. -/
def text_color_change (val : Option ℚ) : String :=
  match val with
  | none => ""
  | some v =>
    if 0 < v then "color:#00cc00; font-weight:bold"
    else if v < 0 then "color:#cc0000; font-weight:bold"
    else ""

/-- `text_color_target(val, current_price)`: green when the target sits
above the current price, red when below, no style on a tie or when either
is absent. -/
def text_color_target (val current_price : Option ℚ) : String :=
  match val, current_price with
  | some v, some cp =>
    if cp < v then "color:#00cc00; font-weight:bold"
    else if v < cp then "color:#cc0000; font-weight:bold"
    else ""
  | _, _ => ""

/-- Currency display (`f"${x:.2f}"`), sentinel "-" when absent. -/
def fmt_currency (x : Option ℚ) : String :=
  match x with
  | none => "-"
  | some v => "$" ++ formatTwoDec v

/-- Sign-prefixed percent display (`f"{x:+.2f}%"`), sentinel "-" when
absent. -/
def fmt_percent (x : Option ℚ) : String :=
  match x with
  | none => "-"
  | some v => (if 0 ≤ v then "+" else "") ++ formatTwoDec v ++ "%"

/-- Market-data fields read inside the try block of the fetch loop: the
provider's short name, consensus mean and mean target price from `info`,
and the available closes (after `dropna()`) from the 5-day history.  The
oracle value `none` models any failure of the market-data fetch, in which
case every field keeps its initialised `None`. -/
structure YahooFetch where
  shortName : Option String
  recommendationMean : Option ℚ
  targetMeanPrice : Option ℚ
  closes : List ℚ

/-- One output row: the dict appended to `rows` for each ticker, raw
fields plus the derived analyst display string. -/
structure Row where
  ticker : String
  company : Option String
  zacks_rank : Option String
  yahoo_avg : String
  yahoo_target : Option ℚ
  current_price : Option ℚ
  pct_change : Option ℚ
  zacks_numeric : Option ℕ
deriving DecidableEq

/-- The body of the fetch loop for one ticker: the Zacks scrape, the
market-data fetch, the derived analyst display string, and the row dict. -/
def build_row (zfetch : String → Option (List Char))
    (yfetch : String → Option YahooFetch) (t : String) : Row :=
  let z := get_zacks_rank zfetch t
  let y := yfetch t
  let pricePair := match y with
    | none => (none, none)
    | some d => price_fields d.closes
  { ticker := t
    company := match y with
      | none => none
      | some d => d.shortName
    zacks_rank := z.2
    yahoo_avg := yahoo_rating_text (match y with
      | none => none
      | some d => d.recommendationMean)
    yahoo_target := match y with
      | none => none
      | some d => d.targetMeanPrice
    current_price := pricePair.1
    pct_change := pricePair.2
    zacks_numeric := z.1 }

/-- The key order of `df.sort_values(by="Zacks Numeric", ascending=True)`:
ascending on present ranks, absent ranks (NaN) placed last, which is the
pandas default `na_position="last"`. -/
def rankLE (a b : Option ℕ) : Bool :=
  match a, b with
  | none, none => true
  | none, some _ => false
  | some _, none => true
  | some x, some y => x ≤ y

/-- The sort of the materialised rows by the hidden numeric-rank column. -/
def sort_rows (rows : List Row) : List Row :=
  rows.mergeSort (fun a b => rankLE a.zacks_numeric b.zacks_numeric)

/-- The whole fetch handler: one row per input ticker occurrence, then the
full resort by numeric rank. -/
def fetch_pipeline (zfetch : String → Option (List Char))
    (yfetch : String → Option YahooFetch) (tickers : List String) : List Row :=
  sort_rows (tickers.map (build_row zfetch yfetch))

/-- A row together with the display and style fields attached by the
rendering stage: the raw fields plus the rendered fields. -/
structure StyledRow where
  ticker : String
  company : Option String
  zacks_rank : Option String
  analyst_mean : Option ℚ
  yahoo_target : Option ℚ
  current_price : Option ℚ
  pct_change : Option ℚ
  yahoo_avg_display : String
  zacks_style : String
  yahoo_style : String
  target_style : String
  change_style : String
  price_display : String
  change_display : String
  target_display : String
deriving DecidableEq

/-- `format_row`: computes every display and style field of a row from its
raw fields, leaving the raw fields untouched — the composition of the
`yahoo_rating_text` call at row construction with the `.style.applymap`
and `.format` calls of the rendering stage. -/
def format_row (r : StyledRow) : StyledRow :=
  { r with
    yahoo_avg_display := yahoo_rating_text r.analyst_mean
    zacks_style := text_color_zacks r.zacks_rank
    yahoo_style := text_color_yahoo (yahoo_rating_text r.analyst_mean)
    target_style := text_color_target r.yahoo_target r.current_price
    change_style := text_color_change r.pct_change
    price_display := fmt_currency r.current_price
    change_display := fmt_percent r.pct_change
    target_display := fmt_currency r.yahoo_target }

theorem matchPhrase_mem {ps : List String} {s : List Char} {p : String}
    (h : matchPhrase ps s = some p) : p ∈ ps := by
  induction ps with
  | nil => simp [matchPhrase] at h
  | cons q qs ih =>
    unfold matchPhrase at h
    cases hm : matchLit q.toList s with
    | some r => rw [hm] at h; simp at h; simp [h]
    | none => rw [hm] at h; exact List.mem_cons_of_mem _ (ih h)

theorem matchZacksAt_shape {s : List Char} {c : Char} {p : String}
    (h : matchZacksAt s = some (c, p)) :
    isDigitChar c = true ∧ p ∈ rankPhrases := by
  unfold matchZacksAt at h
  cases h1 : matchLit ("Zacks Rank".toList) s with
  | none => simp only [h1] at h; exact Option.noConfusion h
  | some s1 =>
    simp only [h1] at h
    cases h2 : stripHash (s1.dropWhile isSpaceChar) with
    | nil => simp only [h2] at h; exact Option.noConfusion h
    | cons c0 s2 =>
      simp only [h2] at h
      by_cases hd : isDigitChar c0 = true
      · simp only [hd, if_true] at h
        cases h3 : s2.dropWhile isSpaceChar with
        | nil => simp only [h3] at h; exact Option.noConfusion h
        | cons d s3 =>
          simp only [h3] at h
          by_cases hdash : d = '-'
          · simp only [hdash, if_true] at h
            cases hm : matchPhrase rankPhrases (s3.dropWhile isSpaceChar) with
            | none => rw [hm] at h; exact Option.noConfusion h
            | some q =>
              rw [hm] at h
              have hcq : (c0, q) = (c, p) := Option.some.inj h
              have hc : c0 = c := congrArg Prod.fst hcq
              have hq : q = p := congrArg Prod.snd hcq
              subst hc
              subst hq
              exact ⟨hd, matchPhrase_mem hm⟩
          · rw [if_neg hdash] at h; exact Option.noConfusion h
      · simp only [hd, if_false] at h
        exact Option.noConfusion h

theorem searchZacks_shape {s : List Char} {c : Char} {p : String}
    (h : searchZacks s = some (c, p)) :
    isDigitChar c = true ∧ p ∈ rankPhrases := by
  induction s with
  | nil => simp [searchZacks] at h
  | cons a rest ih =>
    unfold searchZacks at h
    cases hm : matchZacksAt (a :: rest) with
    | some r => rw [hm] at h; simp at h; subst h; exact matchZacksAt_shape hm
    | none => rw [hm] at h; exact ih h

theorem digitVal_le_nine {c : Char} (h : isDigitChar c = true) : digitVal c ≤ 9 := by
  simp only [isDigitChar, Bool.and_eq_true, decide_eq_true_eq] at h
  have h0 : '0'.toNat = 48 := rfl
  simp only [digitVal, h0]
  omega

theorem rank_from_page_dichotomy (fetch : Option (List Char)) :
    rank_from_page fetch = (none, none) ∨
    ∃ n p, p ∈ rankPhrases ∧ n ≤ 9 ∧
      rank_from_page fetch = (some n, some (toString n ++ " - " ++ p)) := by
  cases fetch with
  | none => exact Or.inl rfl
  | some text =>
    cases hs : searchZacks text with
    | none => left; simp [rank_from_page, hs]
    | some r =>
      obtain ⟨c, p⟩ := r
      obtain ⟨hd, hp⟩ := searchZacks_shape hs
      right
      exact ⟨digitVal c, p, hp, digitVal_le_nine hd, by simp [rank_from_page, hs]⟩

/-- C10: the two components of the result of `get_zacks_rank` are present
or absent together: the result is either `(none, none)` or
`(some n, some s)` where `s` is exactly `toString n ++ " - " ++ phrase`
for one of the five fixed phrases, so the numeric rank and the label
always agree and one field is never present without the other. -/
theorem get_zacks_rank_components_agree (zfetch : String → Option (List Char))
    (ticker : String) :
    get_zacks_rank zfetch ticker = (none, none) ∨
    ∃ n p, p ∈ rankPhrases ∧ n ≤ 9 ∧
      get_zacks_rank zfetch ticker = (some n, some (toString n ++ " - " ++ p)) := by
  unfold get_zacks_rank
  exact rank_from_page_dichotomy (zfetch ticker)

/-- C2 counterexample: the regex captures any single digit, not only 1–5;
a page containing the text `Zacks Rank #7 - Buy` yields the present
numeric rank 7, which is not in {1,2,3,4,5}. -/
theorem get_zacks_rank_digit_not_one_to_five :
    (get_zacks_rank (fun _ => some ("Zacks Rank #7 - Buy".toList)) "AAPL").1 = some 7 ∧
    (7 : ℕ) ∉ ({1, 2, 3, 4, 5} : Finset ℕ) := by
  constructor
  · rfl
  · decide

/-- C2 (amended): whenever `get_zacks_rank` returns a present numeric rank,
that rank is a single decimal digit (an integer in 0–9 — the regex uses
the class `\d`, so digits outside 1–5 are also captured), and the
accompanying label is exactly `toString rank ++ " - " ++ phrase` for one
of the five fixed phrases. -/
theorem get_zacks_rank_present_shape (zfetch : String → Option (List Char))
    (ticker : String) (n : Nat)
    (h : (get_zacks_rank zfetch ticker).1 = some n) :
    n ≤ 9 ∧ ∃ p, p ∈ rankPhrases ∧
      (get_zacks_rank zfetch ticker).2 = some (toString n ++ " - " ++ p) := by
  rcases rank_from_page_dichotomy (zfetch ticker) with habs | ⟨m, p, hp, hm, heq⟩
  · exfalso
    unfold get_zacks_rank at h
    rw [habs] at h
    simp at h
  · unfold get_zacks_rank at h ⊢
    rw [heq] at h ⊢
    simp only [Option.some.injEq] at h
    subst h
    exact ⟨hm, p, hp, rfl⟩

theorem get_zacks_rank_present_shape_witness :
    (get_zacks_rank (fun _ => some ("Zacks Rank #2 - Buy".toList)) "AAPL").1 = some 2 ∧
    (2 ≤ 9 ∧ ∃ p, p ∈ rankPhrases ∧
      (get_zacks_rank (fun _ => some ("Zacks Rank #2 - Buy".toList)) "AAPL").2 =
        some (toString 2 ++ " - " ++ p)) :=
  ⟨rfl, get_zacks_rank_present_shape _ "AAPL" 2 rfl⟩

/-- C5: on any HTTP failure of the rank source (connection failure,
timeout, non-2xx status — all modelled by the oracle returning `none`),
`get_zacks_rank` returns with both components absent; the function is
total, so no exception propagates. -/
theorem get_zacks_rank_failure_absent (zfetch : String → Option (List Char))
    (ticker : String) (h : zfetch ticker = none) :
    get_zacks_rank zfetch ticker = (none, none) := by
  simp [get_zacks_rank, rank_from_page, h]

theorem get_zacks_rank_failure_absent_witness :
    get_zacks_rank (fun _ => none) "AAPL" = (none, none) :=
  get_zacks_rank_failure_absent (fun _ => none) "AAPL" rfl

theorem roundHalfEven_intCast (z : ℤ) : roundHalfEven ((z : ℚ)) = z := by
  unfold roundHalfEven
  rw [Int.floor_intCast, sub_self]
  norm_num

theorem formatTwoDec_eval (q : ℚ) (n : ℤ) (h : q * 100 = (n : ℚ)) :
    formatTwoDec q =
      (if n < 0 then "-" else "") ++ toString (n.natAbs / 100) ++ "." ++
        (if n.natAbs % 100 < 10 then "0" ++ toString (n.natAbs % 100)
         else toString (n.natAbs % 100)) := by
  unfold formatTwoDec
  rw [h, roundHalfEven_intCast]

/-- C4 counterexample: the sentinel for an absent analyst mean is the
string "-", not "N/A". -/
theorem yahoo_rating_text_absent_sentinel :
    yahoo_rating_text none = "-" ∧ ("-" : String) ≠ "N/A" :=
  ⟨rfl, by decide⟩

/-- C4 (amended): a present analyst mean is displayed as its two-decimal
rendering joined with the word chosen by the fixed thresholds
1.5 / 2.5 / 3.5 / 4.5 under strict `<` (each boundary value falls to the
less-severe neighbour, so 1.5 maps to Buy and 4.6 maps to
"4.60 - Strong Sell"); the absent sentinel is "-". -/
theorem yahoo_rating_text_spec (q : ℚ) :
    yahoo_rating_text none = "-" ∧
    yahoo_rating_text (some q) =
      formatTwoDec q ++ " - " ++
        (if q < 1.5 then "Strong Buy"
         else if q < 2.5 then "Buy"
         else if q < 3.5 then "Hold"
         else if q < 4.5 then "Sell"
         else "Strong Sell") ∧
    yahoo_rating_text (some (1.5 : ℚ)) = "1.50 - Buy" ∧
    yahoo_rating_text (some (2.5 : ℚ)) = "2.50 - Hold" ∧
    yahoo_rating_text (some (3.5 : ℚ)) = "3.50 - Sell" ∧
    yahoo_rating_text (some (4.5 : ℚ)) = "4.50 - Strong Sell" ∧
    yahoo_rating_text (some (4.6 : ℚ)) = "4.60 - Strong Sell" := by
  refine ⟨rfl, rfl, ?_, ?_, ?_, ?_, ?_⟩
  · show formatTwoDec (1.5 : ℚ) ++ " - " ++ _ = _
    rw [formatTwoDec_eval (1.5 : ℚ) 150 (by norm_num)]
    norm_num
    rfl
  · show formatTwoDec (2.5 : ℚ) ++ " - " ++ _ = _
    rw [formatTwoDec_eval (2.5 : ℚ) 250 (by norm_num)]
    norm_num
    rfl
  · show formatTwoDec (3.5 : ℚ) ++ " - " ++ _ = _
    rw [formatTwoDec_eval (3.5 : ℚ) 350 (by norm_num)]
    norm_num
    rfl
  · show formatTwoDec (4.5 : ℚ) ++ " - " ++ _ = _
    rw [formatTwoDec_eval (4.5 : ℚ) 450 (by norm_num)]
    norm_num
    rfl
  · show formatTwoDec (4.6 : ℚ) ++ " - " ++ _ = _
    rw [formatTwoDec_eval (4.6 : ℚ) 460 (by norm_num)]
    norm_num
    rfl

/-- C6: total handling of partial price availability: with two available
closes the current price is the later close and the percent change is
100 times the relative change, guarded against a zero previous close;
with one close only the current price is set; with none both fields are
absent; and 100 to 150 gives exactly +50. -/
theorem price_fields_spec (a b : ℚ) :
    price_fields [a, b] =
      (some b, if a ≠ 0 then some ((b - a) / a * 100) else none) ∧
    price_fields [(0 : ℚ), b] = (some b, none) ∧
    price_fields [a] = (some a, none) ∧
    price_fields ([] : List ℚ) = (none, none) ∧
    price_fields [(100 : ℚ), (150 : ℚ)] = (some 150, some 50) := by
  refine ⟨rfl, ?_, rfl, rfl, ?_⟩
  · have h : price_fields [(0 : ℚ), b] =
        (some b, if (0 : ℚ) ≠ 0 then some ((b - 0) / 0 * 100) else none) := rfl
    rw [h]
    simp
  · have h : price_fields [(100 : ℚ), (150 : ℚ)] =
        (some 150, if (100 : ℚ) ≠ 0 then some (((150 : ℚ) - 100) / 100 * 100) else none) := rfl
    rw [h, if_pos (by norm_num : (100 : ℚ) ≠ 0)]
    norm_num

/-- C9: the style of the percent-change cell is determined exactly by its
sign: positive gives the green bold style, negative the red bold style,
zero the neutral empty style, and an absent value no style. -/
theorem text_color_change_spec (q : ℚ) :
    text_color_change none = "" ∧
    text_color_change (some 0) = "" ∧
    (0 < q → text_color_change (some q) = "color:#00cc00; font-weight:bold") ∧
    (q < 0 → text_color_change (some q) = "color:#cc0000; font-weight:bold") := by
  refine ⟨rfl, ?_, ?_, ?_⟩
  · simp [text_color_change]
  · intro h
    simp [text_color_change, h]
  · intro h
    simp [text_color_change, h, not_lt.mpr h.le]

theorem text_color_change_spec_witness :
    text_color_change (some 1) = "color:#00cc00; font-weight:bold" ∧
    text_color_change (some (-1)) = "color:#cc0000; font-weight:bold" :=
  ⟨(text_color_change_spec 1).2.2.1 (by norm_num),
   (text_color_change_spec (-1)).2.2.2 (by norm_num)⟩

/-- C8: the row-formatting stage is idempotent: recomputing every display
and style field of an already formatted row from its raw fields changes
nothing, because the raw fields are left untouched and each display field
is a pure function of them. -/
theorem format_row_idempotent (r : StyledRow) :
    format_row (format_row r) = format_row r := rfl

/-- C1: the pipeline produces exactly one output row per input ticker
occurrence — the output row count equals the input ticker count for every
ticker list and every behaviour of the two fetch oracles — and a ticker
whose every fetch fails still yields a row, with all optional fields
absent and the "-" sentinel as its rating display. -/
theorem pipeline_one_row_per_ticker (zfetch : String → Option (List Char))
    (yfetch : String → Option YahooFetch) (tickers : List String) :
    (fetch_pipeline zfetch yfetch tickers).length = tickers.length ∧
    (∀ t : String, build_row (fun _ => none) (fun _ => none) t =
      { ticker := t, company := none, zacks_rank := none, yahoo_avg := "-",
        yahoo_target := none, current_price := none, pct_change := none,
        zacks_numeric := none }) := by
  refine ⟨?_, fun t => rfl⟩
  simp [fetch_pipeline, sort_rows]

theorem rankLE_trans {a b c : Option ℕ} (h1 : rankLE a b = true)
    (h2 : rankLE b c = true) : rankLE a c = true := by
  cases a <;> cases b <;> cases c <;> simp_all [rankLE]
  all_goals omega

theorem rankLE_total (a b : Option ℕ) : (rankLE a b || rankLE b a) = true := by
  cases a <;> cases b <;> simp [rankLE]
  all_goals omega

/-- C3: the output rows are sorted by numeric rank ascending, and a row
with an absent rank never precedes a row with a present rank (every later
row of one with an absent rank also has an absent rank). -/
theorem pipeline_sorted_by_rank (zfetch : String → Option (List Char))
    (yfetch : String → Option YahooFetch) (tickers : List String) :
    List.Pairwise (fun a b : Row => rankLE a.zacks_numeric b.zacks_numeric = true)
      (fetch_pipeline zfetch yfetch tickers) ∧
    List.Pairwise (fun a b : Row => a.zacks_numeric = none → b.zacks_numeric = none)
      (fetch_pipeline zfetch yfetch tickers) := by
  have hs : List.Pairwise (fun a b : Row => rankLE a.zacks_numeric b.zacks_numeric = true)
      (fetch_pipeline zfetch yfetch tickers) := by
    unfold fetch_pipeline sort_rows
    exact @List.sorted_mergeSort Row
      (fun a b => rankLE a.zacks_numeric b.zacks_numeric)
      (fun a b c hab hbc => rankLE_trans hab hbc)
      (fun a b => rankLE_total _ _)
      (tickers.map (build_row zfetch yfetch))
  refine ⟨hs, hs.imp ?_⟩
  intro a b hab hnone
  cases hb : b.zacks_numeric with
  | none => rfl
  | some v => rw [hnone, hb] at hab; simp [rankLE] at hab

end ZacksApp
